import Mathlib

/-!
Verification of the DMS (Document Management System) routers.

The definitions below are a shallow embedding of the tRPC routers in
`src/server/api/routers/user.ts` (the later, tightened copy of the user
router), the admin router, and the authorization portion of the
secure-download route (`src/app/api/download-secure/route.ts`).

Database tables become lists of records; drizzle `select().where(...)`
becomes `List.filter`, `.limit(1)` with a single consumer becomes
`List.head?`, inner joins become `List.flatMap`, `insert` appends,
`update ... where` maps conditionally, and `delete ... where` filters.
A thrown `TRPCError` becomes `Except.error` carrying the error code;
an error leaves the database unchanged (no write precedes any throw in
the modelled handlers).
-/

namespace DMS

inductive AccessLevel where
  | full
  | read
deriving DecidableEq, Repr

inductive ErrCode where
  | NOT_FOUND
  | FORBIDDEN
  | BAD_REQUEST
  | CONFLICT
deriving DecidableEq, Repr

structure UserRec where
  id : String
  role : String
deriving DecidableEq, Repr

structure AccessGrant where
  userId : String
  categoryId : String
  accessLevel : AccessLevel
deriving DecidableEq, Repr

structure Folder where
  id : String
  name : String
  categoryId : String
  createdBy : String
  isPersonal : Bool
deriving DecidableEq, Repr

structure Document where
  id : String
  name : String
  folderId : String
  createdBy : String
  cloudinaryUrl : String
  currentVersionId : String
deriving DecidableEq, Repr

structure DocumentVersion where
  id : String
  documentId : String
  versionNumber : Nat
  fileUrl : String
  uploadedBy : String
deriving DecidableEq, Repr

structure DB where
  users : List UserRec
  grants : List AccessGrant
  folders : List Folder
  documents : List Document
  versions : List DocumentVersion
deriving DecidableEq, Repr

/-- The `accessControl` rows for one `(user, category)` pair, as selected by
the `hasAccess` query that every category-scoped handler performs. -/
def categoryGrants (db : DB) (uid cid : String) : List AccessGrant :=
  db.grants.filter (fun g => g.userId == uid && g.categoryId == cid)

/-- The join `documents innerJoin folders on folders.id = documents.folderId`
restricted by `where documents.id = docId`, used by the document handlers. -/
def docFolderRows (db : DB) (docId : String) : List (Document × Folder) :=
  (db.documents.filter (fun d => d.id == docId)).flatMap (fun d =>
    (db.folders.filter (fun f => f.id == d.folderId)).map (fun f => (d, f)))

/-- The three-way join used by the secure-download route:
`documentVersions innerJoin documents innerJoin folders` restricted by
`where documentVersions.id = versionId`. -/
def versionDocFolderRows (db : DB) (versionId : String) :
    List (DocumentVersion × Document × Folder) :=
  (db.versions.filter (fun v => v.id == versionId)).flatMap (fun v =>
    (db.documents.filter (fun d => d.id == v.documentId)).flatMap (fun d =>
      (db.folders.filter (fun f => f.id == d.folderId)).map (fun f => (v, d, f))))

/-- `userRouter.getFoldersByCategory` (later copy, user.ts lines 606-637). -/
def getFoldersByCategory (db : DB) (uid cid : String) : Except ErrCode (List Folder) :=
  if (categoryGrants db uid cid).length == 0 then
    .error .FORBIDDEN
  else
    let allFolders := db.folders.filter (fun f => f.categoryId == cid)
    .ok (allFolders.filter (fun f => !f.isPersonal || f.createdBy == uid))

/-- `userRouter.getDocumentsByFolder` (later copy, user.ts lines 640-680). -/
def getDocumentsByFolder (db : DB) (uid fid : String) : Except ErrCode (List Document) :=
  match (db.folders.filter (fun f => f.id == fid)).head? with
  | none => .error .NOT_FOUND
  | some folder =>
    if (categoryGrants db uid folder.categoryId).length == 0 then .error .FORBIDDEN
    else if folder.isPersonal && folder.createdBy != uid then .error .FORBIDDEN
    else .ok (db.documents.filter (fun d => d.folderId == fid))

structure CreateDocumentInput where
  name : String
  folderId : String
  cloudinaryUrl : String
deriving DecidableEq, Repr

/-- `userRouter.createDocument` (later copy, user.ts lines 771-837).
`documentId` and `versionId` stand for the two `generateId()` calls. -/
def createDocument (db : DB) (uid documentId versionId : String)
    (inp : CreateDocumentInput) : Except ErrCode DB :=
  match (db.folders.filter (fun f => f.id == inp.folderId)).head? with
  | none => .error .NOT_FOUND
  | some folder =>
    if (categoryGrants db uid folder.categoryId).length == 0 then .error .FORBIDDEN
    else if !folder.isPersonal || folder.createdBy != uid then .error .FORBIDDEN
    else
      .ok { db with
        documents := db.documents ++
          [⟨documentId, inp.name, inp.folderId, uid, inp.cloudinaryUrl, versionId⟩],
        versions := db.versions ++
          [⟨versionId, documentId, 1, inp.cloudinaryUrl, uid⟩] }

structure CreateVersionInput where
  documentId : String
  fileUrl : String
deriving DecidableEq, Repr

/-- `Math.max(...existingVersions.map(v => v.versionNumber), 0)`. -/
def maxVersionNumber (l : List DocumentVersion) : Nat :=
  (l.map (fun v => v.versionNumber)).foldr max 0

/-- The later upload-permission rule (user.ts lines 880-884): the caller must
own the document and the folder must be personal. -/
def canUploadLater (uid : String) (doc : Document) (folder : Folder) : Bool :=
  doc.createdBy == uid && folder.isPersonal

/-- The earlier upload-permission rule (user.ts lines 318-327 of the earlier
router copy): the caller owns the document, or the folder is shared and the
first matching grant row carries `full` access. -/
def canUploadEarlier (uid : String) (doc : Document) (folder : Folder)
    (grants : List AccessGrant) : Bool :=
  doc.createdBy == uid ||
    (!folder.isPersonal &&
      (match grants.head? with
       | some g => g.accessLevel == AccessLevel.full
       | none => false))

/-- `userRouter.createDocumentVersion` (later copy, user.ts lines 840-922). -/
def createDocumentVersion (db : DB) (uid versionId : String)
    (inp : CreateVersionInput) : Except ErrCode (DB × Nat) :=
  match (docFolderRows db inp.documentId).head? with
  | none => .error .NOT_FOUND
  | some (doc, folder) =>
    if (categoryGrants db uid folder.categoryId).length == 0 then .error .FORBIDDEN
    else if !(canUploadLater uid doc folder) then .error .FORBIDDEN
    else
      let existing := db.versions.filter (fun v => v.documentId == inp.documentId)
      let newNumber := maxVersionNumber existing + 1
      .ok ({ db with
        versions := db.versions ++
          [⟨versionId, inp.documentId, newNumber, inp.fileUrl, uid⟩],
        documents := db.documents.map (fun d =>
          if d.id == inp.documentId then
            { d with currentVersionId := versionId, cloudinaryUrl := inp.fileUrl }
          else d) }, newNumber)

/-- `adminRouter.createDocumentVersion` (lines 223-264): identical version
numbering, no authorization checks, cannot fail. -/
def adminCreateDocumentVersion (db : DB) (uid versionId : String)
    (inp : CreateVersionInput) : DB × Nat :=
  let existing := db.versions.filter (fun v => v.documentId == inp.documentId)
  let newNumber := maxVersionNumber existing + 1
  ({ db with
    versions := db.versions ++
      [⟨versionId, inp.documentId, newNumber, inp.fileUrl, uid⟩],
    documents := db.documents.map (fun d =>
      if d.id == inp.documentId then
        { d with currentVersionId := versionId, cloudinaryUrl := inp.fileUrl }
      else d) }, newNumber)

structure DeleteVersionInput where
  versionId : String
  documentId : String
deriving DecidableEq, Repr

/-- Comparison used to model `orderBy(documentVersions.versionNumber)`. -/
def vnLE (a b : DocumentVersion) : Prop :=
  a.versionNumber ≤ b.versionNumber

instance : DecidableRel vnLE := fun a b => Nat.decLe a.versionNumber b.versionNumber

instance : IsTotal DocumentVersion vnLE :=
  ⟨fun a b => Nat.le_total a.versionNumber b.versionNumber⟩

instance : IsTrans DocumentVersion vnLE :=
  ⟨fun _ _ _ h₁ h₂ => Nat.le_trans h₁ h₂⟩

/-- `remainingVersions[remainingVersions.length - 1]` of the list ordered by
`versionNumber`: sort ascending and take the last element. -/
def latestOf (l : List DocumentVersion) : Option DocumentVersion :=
  (List.insertionSort vnLE l).getLast?

/-- The `update(documents).set({currentVersionId, cloudinaryUrl}).where(id)`
write that re-points a document at the latest remaining version. -/
def repointCurrent (db : DB) (documentId : String) (latest : DocumentVersion) : DB :=
  { db with documents := db.documents.map (fun d =>
      if d.id == documentId then
        { d with currentVersionId := latest.id, cloudinaryUrl := latest.fileUrl }
      else d) }

/-- `userRouter.deleteDocumentVersion` (later copy, user.ts lines 973-1067).
Note the version lookup and the delete filter match on `versionId` alone,
exactly as the drizzle `where(eq(documentVersions.id, input.versionId))`
clauses do. -/
def deleteDocumentVersion (db : DB) (uid : String) (inp : DeleteVersionInput) :
    Except ErrCode DB :=
  match (docFolderRows db inp.documentId).head? with
  | none => .error .NOT_FOUND
  | some (doc, folder) =>
    if (categoryGrants db uid folder.categoryId).length == 0 then .error .FORBIDDEN
    else if !(doc.createdBy == uid && folder.isPersonal) then .error .FORBIDDEN
    else
      match (db.versions.filter (fun v => v.id == inp.versionId)).head? with
      | none => .error .NOT_FOUND
      | some _ =>
        let allVersions := db.versions.filter (fun v => v.documentId == inp.documentId)
        if allVersions.length == 1 then .error .BAD_REQUEST
        else
          let db1 : DB :=
            { db with versions := db.versions.filter (fun v => !(v.id == inp.versionId)) }
          if doc.currentVersionId == inp.versionId then
            let remaining := db1.versions.filter (fun v => v.documentId == inp.documentId)
            match latestOf remaining with
            | some latest => .ok (repointCurrent db1 inp.documentId latest)
            | none => .ok db1
          else .ok db1

/-- `adminRouter.deleteDocumentVersion` (lines 266-325): same flow without
authorization checks; the document row is re-read after the version delete. -/
def adminDeleteDocumentVersion (db : DB) (inp : DeleteVersionInput) :
    Except ErrCode DB :=
  match (db.versions.filter (fun v => v.id == inp.versionId)).head? with
  | none => .error .NOT_FOUND
  | some _ =>
    let allVersions := db.versions.filter (fun v => v.documentId == inp.documentId)
    if allVersions.length == 1 then .error .BAD_REQUEST
    else
      let db1 : DB :=
        { db with versions := db.versions.filter (fun v => !(v.id == inp.versionId)) }
      match (db1.documents.filter (fun d => d.id == inp.documentId)).head? with
      | none => .ok db1
      | some doc =>
        if doc.currentVersionId == inp.versionId then
          let remaining := db1.versions.filter (fun v => v.documentId == inp.documentId)
          match latestOf remaining with
          | some latest => .ok (repointCurrent db1 inp.documentId latest)
          | none => .ok db1
        else .ok db1

structure CloneInput where
  documentId : String
  targetFolderId : String
  newName : Option String
deriving DecidableEq, Repr

/-- `input.newName || sourceName + " (Copy)"`: JavaScript `||` also treats the
empty string as absent. -/
def cloneName (newName : Option String) (sourceName : String) : String :=
  match newName with
  | some n => if n.isEmpty then sourceName ++ " (Copy)" else n
  | none => sourceName ++ " (Copy)"

/-- `userRouter.cloneDocument` (user.ts lines 1309-1424). -/
def cloneDocument (db : DB) (uid newDocId newVerId : String) (inp : CloneInput) :
    Except ErrCode DB :=
  match (docFolderRows db inp.documentId).head? with
  | none => .error .NOT_FOUND
  | some (sourceDoc, sourceFolder) =>
    if (categoryGrants db uid sourceFolder.categoryId).length == 0 then .error .FORBIDDEN
    else
      match (db.folders.filter (fun f =>
          f.id == inp.targetFolderId && f.createdBy == uid && f.isPersonal)).head? with
      | none => .error .FORBIDDEN
      | some targetFolder =>
        if (categoryGrants db uid targetFolder.categoryId).length == 0 then
          .error .FORBIDDEN
        else
          match (db.versions.filter (fun v =>
              v.id == sourceDoc.currentVersionId)).head? with
          | none => .error .NOT_FOUND
          | some currentVersion =>
            let documentName := cloneName inp.newName sourceDoc.name
            .ok { db with
              documents := db.documents ++
                [⟨newDocId, documentName, inp.targetFolderId, uid,
                  currentVersion.fileUrl, newVerId⟩],
              versions := db.versions ++
                [⟨newVerId, newDocId, 1, currentVersion.fileUrl, uid⟩] }

/-- Outcome of the authorization portion of the secure-download route. -/
inductive DownloadDecision where
  | notFound
  | denied
  | allowed (version : DocumentVersion) (document : Document) (folder : Folder)
deriving DecidableEq, Repr

/-- The access-control decision of `handleRequest` in
`src/app/api/download-secure/route.ts` (lines 79-118): resolve the version
row, then for non-admin sessions require a category grant and ownership of
personal folders; `system_admin` skips both checks. -/
def downloadSecureDecision (db : DB) (uid role versionId : String) : DownloadDecision :=
  match (versionDocFolderRows db versionId).head? with
  | none => .notFound
  | some (v, d, f) =>
    if role != "system_admin" then
      if (categoryGrants db uid f.categoryId).length == 0 then .denied
      else if f.isPersonal && f.createdBy != uid then .denied
      else .allowed v d f
    else .allowed v d f

/-- `adminRouter.deleteUser` (lines 66-79). -/
def adminDeleteUser (db : DB) (callerId targetId : String) : Except ErrCode DB :=
  if targetId == callerId then .error .BAD_REQUEST
  else .ok { db with users := db.users.filter (fun u => !(u.id == targetId)) }

/-! ### Example databases used by witnesses and counterexamples -/

/-- A user `u` with a personal folder in category `c` holding one document
with two versions, the second being current. -/
def dbTwo : DB :=
  { users := []
  , grants := [⟨"u", "c", .full⟩]
  , folders := [⟨"f", "F", "c", "u", true⟩]
  , documents := [⟨"d1", "Doc", "f", "u", "url2", "v2"⟩]
  , versions := [⟨"v1", "d1", 1, "url1", "u"⟩, ⟨"v2", "d1", 2, "url2", "u"⟩] }

/-- Like `dbTwo` but the document has a single version. -/
def dbOne : DB :=
  { users := []
  , grants := [⟨"u", "c", .full⟩]
  , folders := [⟨"f", "F", "c", "u", true⟩]
  , documents := [⟨"d1", "Doc", "f", "u", "url1", "v1"⟩]
  , versions := [⟨"v1", "d1", 1, "url1", "u"⟩] }

/-- Two documents: `dA` (owned by `u`, two versions) and `dB` (owned by `w`,
one version). Both folders are personal and live in category `c`. -/
def dbBug : DB :=
  { users := []
  , grants := [⟨"u", "c", .full⟩]
  , folders := [⟨"fA", "A", "c", "u", true⟩, ⟨"fB", "B", "c", "w", true⟩]
  , documents := [⟨"dA", "DocA", "fA", "u", "urlA2", "vA2"⟩,
                  ⟨"dB", "DocB", "fB", "w", "urlB1", "vB1"⟩]
  , versions := [⟨"vA1", "dA", 1, "urlA1", "u"⟩, ⟨"vA2", "dA", 2, "urlA2", "u"⟩,
                 ⟨"vB1", "dB", 1, "urlB1", "w"⟩] }

/-- A document owned by `u` sitting in a shared (non-personal) folder. -/
def docShared : Document := ⟨"d", "Doc", "fs", "u", "url", "v"⟩

/-- A shared folder. -/
def folderShared : Folder := ⟨"fs", "Shared", "c", "root", false⟩

/-! ### Helper lemmas -/

instance {ε α : Type} [DecidableEq ε] [DecidableEq α] : DecidableEq (Except ε α) :=
  fun a b =>
    match a, b with
    | .error e, .error e' => decidable_of_iff (e = e') (by simp)
    | .ok x, .ok y => decidable_of_iff (x = y) (by simp)
    | .error _, .ok _ => isFalse (by simp)
    | .ok _, .error _ => isFalse (by simp)

theorem head?_filter_spec {α : Type} {l : List α} {p : α → Bool} {a : α}
    (h : (l.filter p).head? = some a) : a ∈ l ∧ p a = true := by
  have := List.mem_of_mem_head? (Option.mem_def.mpr h)
  exact List.mem_filter.mp this

theorem docFolderRows_head {db : DB} {docId : String} {doc : Document} {folder : Folder}
    (h : (docFolderRows db docId).head? = some (doc, folder)) :
    doc ∈ db.documents ∧ doc.id = docId ∧ folder ∈ db.folders ∧ folder.id = doc.folderId := by
  have hmem : (doc, folder) ∈ docFolderRows db docId :=
    List.mem_of_mem_head? (Option.mem_def.mpr h)
  unfold docFolderRows at hmem
  rw [List.mem_flatMap] at hmem
  obtain ⟨d, hd, hpair⟩ := hmem
  rw [List.mem_map] at hpair
  obtain ⟨f, hf, heq⟩ := hpair
  obtain ⟨hdoc, hfold⟩ := Prod.mk.injEq .. ▸ heq
  subst hdoc; subst hfold
  have hd' := List.mem_filter.mp hd
  have hf' := List.mem_filter.mp hf
  refine ⟨hd'.1, by simpa using hd'.2, hf'.1, by simpa using hf'.2⟩

theorem le_maxVersionNumber {l : List DocumentVersion} {v : DocumentVersion}
    (h : v ∈ l) : v.versionNumber ≤ maxVersionNumber l := by
  induction l with
  | nil => cases h
  | cons a t ih =>
    rcases List.mem_cons.mp h with h' | h'
    · subst h'; exact Nat.le_max_left _ _
    · exact Nat.le_trans (ih h') (Nat.le_max_right _ _)

theorem latestOf_isSome {l : List DocumentVersion} (h : l ≠ []) :
    ∃ m, latestOf l = some m := by
  unfold latestOf
  have hne : List.insertionSort vnLE l ≠ [] := by
    intro hc
    exact h (List.Perm.eq_nil ((List.perm_insertionSort vnLE l).symm.trans (hc ▸ List.Perm.refl _)))
  cases hl : (List.insertionSort vnLE l).getLast? with
  | none => exact absurd (List.getLast?_eq_none_iff.mp hl) hne
  | some m => exact ⟨m, rfl⟩

theorem sorted_getLast?_bound :
    ∀ {l : List DocumentVersion}, List.Sorted vnLE l →
      ∀ {m : DocumentVersion}, l.getLast? = some m →
        ∀ v ∈ l, v.versionNumber ≤ m.versionNumber := by
  intro l
  induction l with
  | nil => intro _ m hm; cases hm
  | cons a t ih =>
    intro hs m hm v hv
    cases t with
    | nil =>
      simp only [List.getLast?_singleton, Option.some.injEq] at hm
      rcases List.mem_singleton.mp hv with h'
      subst h'; subst hm; exact Nat.le_refl _
    | cons b t' =>
      rw [List.getLast?_cons_cons] at hm
      have hmm : m ∈ b :: t' := List.mem_of_mem_getLast? (by rw [hm]; rfl)
      rcases List.mem_cons.mp hv with h' | h'
      · subst h'
        exact List.rel_of_sorted_cons hs m hmm
      · exact ih hs.of_cons hm v h'

theorem latestOf_spec {l : List DocumentVersion} {m : DocumentVersion}
    (h : latestOf l = some m) :
    m ∈ l ∧ ∀ v ∈ l, v.versionNumber ≤ m.versionNumber := by
  unfold latestOf at h
  have hmem : m ∈ List.insertionSort vnLE l :=
    List.mem_of_mem_getLast? (by rw [h]; rfl)
  constructor
  · exact (List.mem_insertionSort vnLE).mp hmem
  · intro v hv
    exact sorted_getLast?_bound (List.sorted_insertionSort vnLE l) h v
      ((List.mem_insertionSort vnLE).mpr hv)

/-! ### Claim theorems -/

/-- C10: `adminRouter.deleteUser` rejects deleting the caller's own account
with `BAD_REQUEST` (removing no row), and for any other target id it
unconditionally removes the user rows with that id. -/
theorem deleteUser_self_guard (db : DB) (callerId targetId : String) :
    (targetId = callerId → adminDeleteUser db callerId targetId = .error .BAD_REQUEST) ∧
    (targetId ≠ callerId →
      adminDeleteUser db callerId targetId =
        .ok { db with users := db.users.filter (fun u => !(u.id == targetId)) }) := by
  constructor
  · intro h; subst h; simp [adminDeleteUser]
  · intro h; simp [adminDeleteUser, h]

/-- Witness for C10 at concrete inputs. -/
theorem deleteUser_self_guard_witness :
    ("a" : String) ≠ "b" ∧
    adminDeleteUser dbTwo "a" "a" = .error .BAD_REQUEST ∧
    adminDeleteUser dbTwo "a" "b" =
      .ok { dbTwo with users := dbTwo.users.filter (fun u => !(u.id == "b")) } :=
  ⟨by decide, (deleteUser_self_guard dbTwo "a" "a").1 rfl,
    (deleteUser_self_guard dbTwo "a" "b").2 (by decide)⟩

/-- C9: the later upload-authorization rule (creator AND personal folder) is
strictly stronger than the earlier one (creator OR shared folder with full
access): every state the later rule permits the earlier also permits, and on
a document owned by the caller in a shared folder the earlier rule permits
while the later rejects. -/
theorem uploadPolicy_refinement :
    (∀ (uid : String) (doc : Document) (folder : Folder) (grants : List AccessGrant),
      canUploadLater uid doc folder = true → canUploadEarlier uid doc folder grants = true) ∧
    (canUploadEarlier "u" docShared folderShared [] = true ∧
      canUploadLater "u" docShared folderShared = false) := by
  refine ⟨?_, by decide, by decide⟩
  intro uid doc folder grants h
  rw [canUploadLater, Bool.and_eq_true] at h
  rw [canUploadEarlier, Bool.or_eq_true]
  exact Or.inl h.1

/-- Witness for C9: the inclusion applied at a concrete permitted state. -/
theorem uploadPolicy_refinement_witness :
    canUploadLater "u" ⟨"d1", "Doc", "f", "u", "url2", "v2"⟩ ⟨"f", "F", "c", "u", true⟩ = true ∧
    canUploadEarlier "u" ⟨"d1", "Doc", "f", "u", "url2", "v2"⟩ ⟨"f", "F", "c", "u", true⟩ [] = true :=
  ⟨by decide, uploadPolicy_refinement.1 "u" _ _ [] (by decide)⟩

/-- The tightened condition under which a non-admin may upload a version:
a grant on the document's category, ownership of the document, and a
personal folder. -/
def uploadPermitted (db : DB) (uid : String) (doc : Document) (folder : Folder) : Prop :=
  categoryGrants db uid folder.categoryId ≠ [] ∧ doc.createdBy = uid ∧ folder.isPersonal = true

/-- C5: under the tightened rule, `createDocumentVersion` succeeds exactly
when the caller has a grant on the document's category, created the document,
and the folder is personal; a missing document yields `NOT_FOUND`, any other
failure yields `FORBIDDEN`. -/
theorem createVersion_authz (db : DB) (uid vid : String) (inp : CreateVersionInput) :
    ((∃ out, createDocumentVersion db uid vid inp = .ok out) ↔
      ∃ doc folder, (docFolderRows db inp.documentId).head? = some (doc, folder) ∧
        uploadPermitted db uid doc folder) ∧
    ((docFolderRows db inp.documentId).head? = none →
      createDocumentVersion db uid vid inp = .error .NOT_FOUND) ∧
    (∀ doc folder, (docFolderRows db inp.documentId).head? = some (doc, folder) →
      ¬ uploadPermitted db uid doc folder →
      createDocumentVersion db uid vid inp = .error .FORBIDDEN) := by
  cases h : (docFolderRows db inp.documentId).head? with
  | none =>
    refine ⟨by simp [createDocumentVersion, h], fun _ => by simp [createDocumentVersion, h],
      fun doc folder hsome => by simp at hsome⟩
  | some df =>
    obtain ⟨doc, folder⟩ := df
    have key : ∀ d f, (some (doc, folder) : Option (Document × Folder)) = some (d, f) →
        ¬ uploadPermitted db uid d f →
        createDocumentVersion db uid vid inp = .error .FORBIDDEN := by
      intro d f hsome hnp
      injection hsome with hdf
      rw [show d = doc from (congrArg Prod.fst hdf).symm,
          show f = folder from (congrArg Prod.snd hdf).symm] at hnp
      by_cases hg : categoryGrants db uid folder.categoryId = []
      · simp [createDocumentVersion, h, hg]
      · have hcu : canUploadLater uid doc folder = false := by
          cases hb : (doc.createdBy == uid && folder.isPersonal) with
          | false => rw [canUploadLater]; exact hb
          | true =>
            rw [Bool.and_eq_true, beq_iff_eq] at hb
            exact absurd ⟨hg, hb.1, hb.2⟩ hnp
        simp [createDocumentVersion, h, hg, hcu]
    refine ⟨?_, fun hn => by simp at hn, key⟩
    constructor
    · rintro ⟨out, hout⟩
      refine ⟨doc, folder, rfl, ?_⟩
      by_contra hnp
      rw [key doc folder rfl hnp] at hout
      cases hout
    · rintro ⟨d, f, hsome, hperm⟩
      injection hsome with hdf
      rw [show d = doc from (congrArg Prod.fst hdf).symm,
          show f = folder from (congrArg Prod.snd hdf).symm] at hperm
      have hcu : canUploadLater uid doc folder = true := by
        rw [canUploadLater, Bool.and_eq_true, beq_iff_eq]
        exact ⟨hperm.2.1, hperm.2.2⟩
      rcases hres : createDocumentVersion db uid vid inp with e | out
      · exfalso
        simp [createDocumentVersion, h, hperm.1, hcu] at hres
      · exact ⟨out, rfl⟩

instance (db : DB) (uid : String) (doc : Document) (folder : Folder) :
    Decidable (uploadPermitted db uid doc folder) := by
  unfold uploadPermitted; infer_instance

/-- Witness for C5: the equivalence instantiated on a concrete database. -/
theorem createVersion_authz_witness :
    ((∃ out, createDocumentVersion dbTwo "u" "v9" ⟨"d1", "url9"⟩ = .ok out) ↔
      ∃ doc folder, (docFolderRows dbTwo "d1").head? = some (doc, folder) ∧
        uploadPermitted dbTwo "u" doc folder) ∧
    (∃ doc folder, (docFolderRows dbTwo "d1").head? = some (doc, folder) ∧
      uploadPermitted dbTwo "u" doc folder) :=
  ⟨(createVersion_authz dbTwo "u" "v9" ⟨"d1", "url9"⟩).1,
    ⟨⟨"d1", "Doc", "f", "u", "url2", "v2"⟩, ⟨"f", "F", "c", "u", true⟩, by decide, by decide⟩⟩

theorem personalGuard_false {folder : Folder} {uid : String}
    (h : folder.isPersonal = false ∨ folder.createdBy = uid) :
    (folder.isPersonal && folder.createdBy != uid) = false := by
  rcases h with h | h
  · simp [h]
  · simp [h]

/-- C6: the read operations are gated on an `AccessGrant(user, category)` row:
folder listing succeeds exactly when a grant exists, document listing and the
secure download deny exactly the grantless callers (and additionally the
non-owners of personal folders), and a `system_admin` session bypasses the
grant check of the download route. -/
theorem categoryRead_gating (db : DB) (uid cid fid role dvid : String) :
    ((∃ l, getFoldersByCategory db uid cid = .ok l) ↔ categoryGrants db uid cid ≠ []) ∧
    (categoryGrants db uid cid = [] →
      getFoldersByCategory db uid cid = .error .FORBIDDEN) ∧
    (∀ l, getDocumentsByFolder db uid fid = .ok l →
      ∃ folder, (db.folders.filter (fun f => f.id == fid)).head? = some folder ∧
        categoryGrants db uid folder.categoryId ≠ []) ∧
    (∀ folder, (db.folders.filter (fun f => f.id == fid)).head? = some folder →
      categoryGrants db uid folder.categoryId = [] →
      getDocumentsByFolder db uid fid = .error .FORBIDDEN) ∧
    (∀ folder, (db.folders.filter (fun f => f.id == fid)).head? = some folder →
      categoryGrants db uid folder.categoryId ≠ [] →
      (folder.isPersonal = false ∨ folder.createdBy = uid) →
      getDocumentsByFolder db uid fid =
        .ok (db.documents.filter (fun d => d.folderId == fid))) ∧
    (∀ v d f, (versionDocFolderRows db dvid).head? = some (v, d, f) →
      role ≠ "system_admin" →
      (categoryGrants db uid f.categoryId = [] →
        downloadSecureDecision db uid role dvid = .denied) ∧
      (categoryGrants db uid f.categoryId ≠ [] →
        (f.isPersonal = false ∨ f.createdBy = uid) →
        downloadSecureDecision db uid role dvid = .allowed v d f)) ∧
    (∀ v d f, (versionDocFolderRows db dvid).head? = some (v, d, f) →
      downloadSecureDecision db uid "system_admin" dvid = .allowed v d f) := by
  refine ⟨?_, ?_, ?_, ?_, ?_, ?_, ?_⟩
  · by_cases hg : categoryGrants db uid cid = []
    · simp [getFoldersByCategory, hg]
    · simp only [getFoldersByCategory]
      rw [if_neg (by simp [hg])]
      exact ⟨fun _ => hg, fun _ => ⟨_, rfl⟩⟩
  · intro hg; simp [getFoldersByCategory, hg]
  · intro l hl
    cases hf : (db.folders.filter (fun f => f.id == fid)).head? with
    | none => simp [getDocumentsByFolder, hf] at hl
    | some folder =>
      refine ⟨folder, rfl, ?_⟩
      intro hg
      simp [getDocumentsByFolder, hf, hg] at hl
  · intro folder hf hg
    simp [getDocumentsByFolder, hf, hg]
  · intro folder hf hg hvis
    simp only [getDocumentsByFolder, hf]
    rw [if_neg (by simp [hg]), personalGuard_false hvis]
    simp
  · intro v d f hv hrole
    constructor
    · intro hg
      simp [downloadSecureDecision, hv, hg, hrole]
    · intro hg hvis
      simp only [downloadSecureDecision, hv]
      rw [if_pos (by simp [hrole]), if_neg (by simp [hg]), personalGuard_false hvis]
      simp
  · intro v d f hv
    simp [downloadSecureDecision, hv]

/-- Witness for C6 on a concrete database: the folder-listing equivalence and
a concrete allowed download. -/
theorem categoryRead_gating_witness :
    ((∃ l, getFoldersByCategory dbTwo "u" "c" = .ok l) ↔ categoryGrants dbTwo "u" "c" ≠ []) ∧
    downloadSecureDecision dbTwo "u" "user" "v1" =
      .allowed ⟨"v1", "d1", 1, "url1", "u"⟩ ⟨"d1", "Doc", "f", "u", "url2", "v2"⟩
        ⟨"f", "F", "c", "u", true⟩ :=
  ⟨(categoryRead_gating dbTwo "u" "c" "f" "user" "v1").1,
    ((categoryRead_gating dbTwo "u" "c" "f" "user" "v1").2.2.2.2.2.1
      _ _ _ (by decide) (by decide)).2 (by decide) (by decide)⟩

/-- C7: a non-admin folder listing returns exactly the shared folders of the
category together with the caller's own personal folders; a personal folder
of another user never appears, and listing its documents is `FORBIDDEN`. -/
theorem personalFolderVisibility (db : DB) (uid cid fid : String) :
    (∀ l, getFoldersByCategory db uid cid = .ok l →
      ∀ f : Folder, f ∈ l ↔
        (f ∈ db.folders ∧ f.categoryId = cid ∧
          (f.isPersonal = false ∨ f.createdBy = uid))) ∧
    (∀ folder, (db.folders.filter (fun f => f.id == fid)).head? = some folder →
      folder.isPersonal = true → folder.createdBy ≠ uid →
      getDocumentsByFolder db uid fid = .error .FORBIDDEN) := by
  constructor
  · intro l hl f
    by_cases hg : categoryGrants db uid cid = []
    · simp [getFoldersByCategory, hg] at hl
    · simp only [getFoldersByCategory] at hl
      rw [if_neg (by simp [hg])] at hl
      injection hl with hl
      subst hl
      simp only [List.mem_filter, Bool.or_eq_true, Bool.not_eq_true', beq_iff_eq]
      tauto
  · intro folder hf hp hnu
    by_cases hg : categoryGrants db uid folder.categoryId = []
    · simp [getDocumentsByFolder, hf, hg]
    · simp only [getDocumentsByFolder, hf]
      rw [if_neg (by simp [hg]), if_pos (by simp [hp, hnu])]

/-- Witness for C7: another user's personal folder is invisible and its
document listing is rejected, on a concrete database. -/
theorem personalFolderVisibility_witness :
    (∀ f : Folder, f ∈ [Folder.mk "fA" "A" "c" "u" true] ↔
      (f ∈ dbBug.folders ∧ f.categoryId = "c" ∧
        (f.isPersonal = false ∨ f.createdBy = "u"))) ∧
    getDocumentsByFolder dbBug "u" "fB" = .error .FORBIDDEN :=
  ⟨(personalFolderVisibility dbBug "u" "c" "fB").1 [Folder.mk "fA" "A" "c" "u" true] (by decide),
    (personalFolderVisibility dbBug "u" "c" "fB").2 (Folder.mk "fB" "B" "c" "w" true)
      (by decide) (by decide) (by decide)⟩

/-- C8: `cloneDocument` requires a grant on the source category, a personal
target folder owned by the caller, and a grant on the target category
(throwing `FORBIDDEN` otherwise once the source resolves); on success it adds
exactly one document in the target folder and exactly one version, numbered 1
and carrying the source's current-version file reference. -/
theorem cloneDocument_spec (db : DB) (uid newDocId newVerId : String) (inp : CloneInput) :
    (∀ db', cloneDocument db uid newDocId newVerId inp = .ok db' →
      ∃ sourceDoc sourceFolder targetFolder currentVersion,
        (docFolderRows db inp.documentId).head? = some (sourceDoc, sourceFolder) ∧
        categoryGrants db uid sourceFolder.categoryId ≠ [] ∧
        targetFolder ∈ db.folders ∧ targetFolder.id = inp.targetFolderId ∧
        targetFolder.createdBy = uid ∧ targetFolder.isPersonal = true ∧
        categoryGrants db uid targetFolder.categoryId ≠ [] ∧
        (db.versions.filter (fun v => v.id == sourceDoc.currentVersionId)).head? =
          some currentVersion ∧
        db'.documents = db.documents ++
          [⟨newDocId, cloneName inp.newName sourceDoc.name, inp.targetFolderId, uid,
            currentVersion.fileUrl, newVerId⟩] ∧
        db'.versions = db.versions ++ [⟨newVerId, newDocId, 1, currentVersion.fileUrl, uid⟩]) ∧
    (∀ sourceDoc sourceFolder,
      (docFolderRows db inp.documentId).head? = some (sourceDoc, sourceFolder) →
      (categoryGrants db uid sourceFolder.categoryId = [] ∨
        (db.folders.filter (fun f =>
          f.id == inp.targetFolderId && f.createdBy == uid && f.isPersonal)).head? = none ∨
        (∃ tf, (db.folders.filter (fun f =>
            f.id == inp.targetFolderId && f.createdBy == uid && f.isPersonal)).head? = some tf ∧
          categoryGrants db uid tf.categoryId = [])) →
      cloneDocument db uid newDocId newVerId inp = .error .FORBIDDEN) := by
  constructor
  · intro db' h
    cases h1 : (docFolderRows db inp.documentId).head? with
    | none => simp [cloneDocument, h1] at h
    | some p =>
      obtain ⟨sd, sf⟩ := p
      by_cases hg : categoryGrants db uid sf.categoryId = []
      · simp [cloneDocument, h1, hg] at h
      · cases h2 : (db.folders.filter (fun f =>
            f.id == inp.targetFolderId && f.createdBy == uid && f.isPersonal)).head? with
        | none => simp [cloneDocument, h1, hg, h2] at h
        | some tf =>
          by_cases hgt : categoryGrants db uid tf.categoryId = []
          · simp [cloneDocument, h1, hg, h2, hgt] at h
          · cases h3 : (db.versions.filter (fun v => v.id == sd.currentVersionId)).head? with
            | none => simp [cloneDocument, h1, hg, h2, hgt, h3] at h
            | some cv =>
              have hres : cloneDocument db uid newDocId newVerId inp =
                  .ok { db with
                    documents := db.documents ++
                      [⟨newDocId, cloneName inp.newName sd.name, inp.targetFolderId, uid,
                        cv.fileUrl, newVerId⟩],
                    versions := db.versions ++ [⟨newVerId, newDocId, 1, cv.fileUrl, uid⟩] } := by
                simp [cloneDocument, h1, hg, h2, hgt, h3]
              rw [hres] at h
              injection h with h
              obtain ⟨htf, hptf⟩ := head?_filter_spec h2
              simp only [Bool.and_eq_true, beq_iff_eq] at hptf
              refine ⟨sd, sf, tf, cv, rfl, hg, htf, hptf.1.1, hptf.1.2, hptf.2, hgt, h3, ?_, ?_⟩
              · rw [← h]
              · rw [← h]
  · intro sd sf h1 hbad
    rcases hbad with hg | h2 | ⟨tf, h2, hgt⟩
    · simp [cloneDocument, h1, hg]
    · by_cases hg : categoryGrants db uid sf.categoryId = []
      · simp [cloneDocument, h1, hg]
      · simp [cloneDocument, h1, hg, h2]
    · by_cases hg : categoryGrants db uid sf.categoryId = []
      · simp [cloneDocument, h1, hg]
      · simp [cloneDocument, h1, hg, h2, hgt]

/-- The result of cloning `dbTwo`'s document into its own folder. -/
def dbTwoCloned : DB :=
  { dbTwo with
    documents := dbTwo.documents ++ [⟨"nd", "Doc (Copy)", "f", "u", "url2", "nv"⟩],
    versions := dbTwo.versions ++ [⟨"nv", "nd", 1, "url2", "u"⟩] }

/-- Witness for C8: a successful concrete clone and a rejected one (target
folder owned by another user). -/
theorem cloneDocument_spec_witness :
    (∃ sourceDoc sourceFolder targetFolder currentVersion,
      (docFolderRows dbTwo "d1").head? = some (sourceDoc, sourceFolder) ∧
      categoryGrants dbTwo "u" sourceFolder.categoryId ≠ [] ∧
      targetFolder ∈ dbTwo.folders ∧ targetFolder.id = "f" ∧
      targetFolder.createdBy = "u" ∧ targetFolder.isPersonal = true ∧
      categoryGrants dbTwo "u" targetFolder.categoryId ≠ [] ∧
      (dbTwo.versions.filter (fun v => v.id == sourceDoc.currentVersionId)).head? =
        some currentVersion ∧
      dbTwoCloned.documents = dbTwo.documents ++
        [⟨"nd", cloneName none sourceDoc.name, "f", "u", currentVersion.fileUrl, "nv"⟩] ∧
      dbTwoCloned.versions = dbTwo.versions ++
        [⟨"nv", "nd", 1, currentVersion.fileUrl, "u"⟩]) ∧
    cloneDocument dbBug "u" "nd" "nv" ⟨"dA", "fB", none⟩ = .error .FORBIDDEN :=
  ⟨(cloneDocument_spec dbTwo "u" "nd" "nv" ⟨"d1", "f", none⟩).1 dbTwoCloned (by decide),
    (cloneDocument_spec dbBug "u" "nd" "nv" ⟨"dA", "fB", none⟩).2
      ⟨"dA", "DocA", "fA", "u", "urlA2", "vA2"⟩ ⟨"fA", "A", "c", "u", true⟩
      (by decide) (Or.inr (Or.inl (by decide)))⟩

/-- C2: deleting the only version of a document (addressing that document) is
rejected with `BAD_REQUEST` by both routers; the error carries no write, so
the version set and `currentVersionId` are untouched. -/
theorem deleteVersion_lastGuard (db : DB) (uid : String) (doc : Document) (folder : Folder)
    (v : DocumentVersion)
    (hdoc : (docFolderRows db doc.id).head? = some (doc, folder))
    (hg : categoryGrants db uid folder.categoryId ≠ [])
    (hcd : doc.createdBy = uid) (hp : folder.isPersonal = true)
    (h1 : db.versions.filter (fun w => w.documentId == doc.id) = [v]) :
    deleteDocumentVersion db uid ⟨v.id, doc.id⟩ = .error .BAD_REQUEST ∧
    adminDeleteDocumentVersion db ⟨v.id, doc.id⟩ = .error .BAD_REQUEST := by
  have hvmem : v ∈ db.versions := by
    have hm : v ∈ db.versions.filter (fun w => w.documentId == doc.id) := by
      rw [h1]; exact List.mem_cons_self v []
    exact (List.mem_filter.mp hm).1
  have hne : db.versions.filter (fun w => w.id == v.id) ≠ [] := by
    intro hc
    have hm : v ∈ db.versions.filter (fun w => w.id == v.id) :=
      List.mem_filter.mpr ⟨hvmem, by simp⟩
    rw [hc] at hm; cases hm
  cases hvl : (db.versions.filter (fun w => w.id == v.id)).head? with
  | none => exact absurd (List.head?_eq_none_iff.mp hvl) hne
  | some w =>
    constructor
    · simp [deleteDocumentVersion, hdoc, hg, hcd, hp, hvl, h1]
    · simp [adminDeleteDocumentVersion, hvl, h1]

/-- Witness for C2 on a one-version concrete database. -/
theorem deleteVersion_lastGuard_witness :
    deleteDocumentVersion dbOne "u" ⟨"v1", "d1"⟩ = .error .BAD_REQUEST ∧
    adminDeleteDocumentVersion dbOne ⟨"v1", "d1"⟩ = .error .BAD_REQUEST :=
  deleteVersion_lastGuard dbOne "u" ⟨"d1", "Doc", "f", "u", "url1", "v1"⟩
    ⟨"f", "F", "c", "u", true⟩ ⟨"v1", "d1", 1, "url1", "u"⟩
    (by decide) (by decide) (by decide) (by decide) (by decide)

theorem createVersion_ok_shape (db : DB) (uid vid : String) (inp : CreateVersionInput)
    (db' : DB) (n : Nat)
    (hok : createDocumentVersion db uid vid inp = .ok (db', n)) :
    n = maxVersionNumber (db.versions.filter (fun v => v.documentId == inp.documentId)) + 1 ∧
    db'.versions = db.versions ++ [⟨vid, inp.documentId, n, inp.fileUrl, uid⟩] := by
  cases h1 : (docFolderRows db inp.documentId).head? with
  | none => simp [createDocumentVersion, h1] at hok
  | some p =>
    obtain ⟨doc, folder⟩ := p
    by_cases hg : categoryGrants db uid folder.categoryId = []
    · simp [createDocumentVersion, h1, hg] at hok
    · cases hcu : canUploadLater uid doc folder with
      | false => simp [createDocumentVersion, h1, hg, hcu] at hok
      | true =>
        have hres : createDocumentVersion db uid vid inp = .ok
            ({ db with
              versions := db.versions ++
                [⟨vid, inp.documentId,
                  maxVersionNumber
                    (db.versions.filter (fun v => v.documentId == inp.documentId)) + 1,
                  inp.fileUrl, uid⟩],
              documents := db.documents.map (fun d =>
                if d.id == inp.documentId then
                  { d with currentVersionId := vid, cloudinaryUrl := inp.fileUrl }
                else d) },
              maxVersionNumber
                (db.versions.filter (fun v => v.documentId == inp.documentId)) + 1) := by
          simp [createDocumentVersion, h1, hg, hcu]
        rw [hres] at hok
        injection hok with hok
        obtain ⟨hdb, hn⟩ := Prod.mk.injEq .. ▸ hok
        subst hn
        constructor
        · rfl
        · rw [← hdb]

/-- C3: a permitted `createDocumentVersion` (user or admin router) assigns
`max(existing versionNumbers) + 1` (so `1` when no version exists), a number
strictly above every existing version number of the document — hence version
numbers strictly increase over successive creations and a number freed by a
deletion is never reused while a higher number remains. -/
theorem versionNumbering (db db1 : DB) (uid uid2 vid vid2 : String)
    (inp : CreateVersionInput) (n1 : Nat) :
    (createDocumentVersion db uid vid inp = .ok (db1, n1) →
      n1 = maxVersionNumber (db.versions.filter (fun v => v.documentId == inp.documentId)) + 1 ∧
      (db.versions.filter (fun v => v.documentId == inp.documentId) = [] → n1 = 1) ∧
      (∀ v ∈ db.versions, v.documentId = inp.documentId → v.versionNumber < n1)) ∧
    ((adminCreateDocumentVersion db uid vid inp).2 =
      maxVersionNumber (db.versions.filter (fun v => v.documentId == inp.documentId)) + 1 ∧
      (∀ v ∈ db.versions, v.documentId = inp.documentId →
        v.versionNumber < (adminCreateDocumentVersion db uid vid inp).2)) ∧
    (∀ db2 n2, createDocumentVersion db uid vid inp = .ok (db1, n1) →
      createDocumentVersion db1 uid2 vid2 inp = .ok (db2, n2) → n1 < n2) := by
  refine ⟨?_, ⟨rfl, ?_⟩, ?_⟩
  · intro hok
    obtain ⟨hn, _⟩ := createVersion_ok_shape db uid vid inp db1 n1 hok
    refine ⟨hn, ?_, ?_⟩
    · intro hnil; rw [hn, hnil]; rfl
    · intro v hv hvd
      have hmem : v ∈ db.versions.filter (fun w => w.documentId == inp.documentId) :=
        List.mem_filter.mpr ⟨hv, by simp [hvd]⟩
      calc v.versionNumber
          ≤ maxVersionNumber (db.versions.filter (fun w => w.documentId == inp.documentId)) :=
            le_maxVersionNumber hmem
        _ < n1 := by rw [hn]; exact Nat.lt_succ_self _
  · intro v hv hvd
    have hmem : v ∈ db.versions.filter (fun w => w.documentId == inp.documentId) :=
      List.mem_filter.mpr ⟨hv, by simp [hvd]⟩
    have h1 : (adminCreateDocumentVersion db uid vid inp).2 =
        maxVersionNumber (db.versions.filter (fun w => w.documentId == inp.documentId)) + 1 := rfl
    rw [h1]
    exact Nat.lt_succ_of_le (le_maxVersionNumber hmem)
  · intro db2 n2 hok1 hok2
    obtain ⟨hn1, hvers1⟩ := createVersion_ok_shape db uid vid inp db1 n1 hok1
    obtain ⟨hn2, _⟩ := createVersion_ok_shape db1 uid2 vid2 inp db2 n2 hok2
    have hmem : (⟨vid, inp.documentId, n1, inp.fileUrl, uid⟩ : DocumentVersion) ∈
        db1.versions.filter (fun v => v.documentId == inp.documentId) := by
      rw [hvers1]
      exact List.mem_filter.mpr ⟨List.mem_append_right _ (List.mem_cons_self _ []), by simp⟩
    have hle := le_maxVersionNumber hmem
    rw [hn2]
    exact Nat.lt_succ_of_le hle

/-- Witness for C3 on `dbTwo`: the created version is numbered `3 = max{1,2}+1`. -/
theorem versionNumbering_witness :
    createDocumentVersion dbTwo "u" "v9" ⟨"d1", "url9"⟩ =
      .ok ({ dbTwo with
        versions := dbTwo.versions ++ [⟨"v9", "d1", 3, "url9", "u"⟩],
        documents := [⟨"d1", "Doc", "f", "u", "url9", "v9"⟩] }, 3) ∧
    (3 : Nat) =
      maxVersionNumber (dbTwo.versions.filter (fun v => v.documentId == "d1")) + 1 ∧
    (∀ v ∈ dbTwo.versions, v.documentId = "d1" → v.versionNumber < 3) :=
  ⟨by decide, ((versionNumbering dbTwo
      ({ dbTwo with
        versions := dbTwo.versions ++ [⟨"v9", "d1", 3, "url9", "u"⟩],
        documents := [⟨"d1", "Doc", "f", "u", "url9", "v9"⟩] })
      "u" "u" "v9" "v2" ⟨"d1", "url9"⟩ 3).1 (by decide)).1,
    ((versionNumbering dbTwo
      ({ dbTwo with
        versions := dbTwo.versions ++ [⟨"v9", "d1", 3, "url9", "u"⟩],
        documents := [⟨"d1", "Doc", "f", "u", "url9", "v9"⟩] })
      "u" "u" "v9" "v2" ⟨"d1", "url9"⟩ 3).1 (by decide)).2.2⟩

/-- The state produced by the C4 failing input: document `dB` survives while
its only version is gone. -/
def dbBugAfter : DB :=
  { dbBug with versions := [⟨"vA1", "dA", 1, "urlA1", "u"⟩, ⟨"vA2", "dA", 2, "urlA2", "u"⟩] }

/-- C4: the "every document keeps at least one version" invariant is broken
by the code. The version lookup and delete in `deleteDocumentVersion` match
on `versionId` alone, never checking it belongs to `input.documentId`, while
the only-version guard counts `input.documentId`'s versions. Calling the
handler with `documentId = "dA"` (owned by the caller, two versions) and
`versionId = "vB1"` (the only version of `dB`) therefore succeeds and leaves
document `dB` with an empty version set. -/
theorem lastVersion_invariant_violated :
    deleteDocumentVersion dbBug "u" ⟨"vB1", "dA"⟩ = .ok dbBugAfter ∧
    (∃ d ∈ dbBugAfter.documents, d.id = "dB") ∧
    dbBugAfter.versions.filter (fun v => v.documentId == "dB") = [] ∧
    dbBug.versions.filter (fun v => v.documentId == "dB") =
      [⟨"vB1", "dB", 1, "urlB1", "w"⟩] := by
  refine ⟨by decide, ⟨⟨"dB", "DocB", "fB", "w", "urlB1", "vB1"⟩, by decide, rfl⟩, by decide, by decide⟩

/-- After a delete of the current version of document `did`, some remaining
version of `did` with the maximum remaining `versionNumber` is pointed to by
the document's `currentVersionId`, and `cloudinaryUrl` carries its file. -/
def RepointedToMax (db' : DB) (did : String) : Prop :=
  ∃ latest ∈ db'.versions, latest.documentId = did ∧
    (∀ v ∈ db'.versions, v.documentId = did → v.versionNumber ≤ latest.versionNumber) ∧
    ∃ doc' ∈ db'.documents, doc'.id = did ∧
      doc'.currentVersionId = latest.id ∧ doc'.cloudinaryUrl = latest.fileUrl

theorem remaining_nonempty (db : DB) (did vid : String)
    (hWF : db.versions.Pairwise (fun a b => a.id ≠ b.id))
    (h2 : 2 ≤ (db.versions.filter (fun v => v.documentId == did)).length) :
    (db.versions.filter (fun v => !(v.id == vid))).filter
      (fun v => v.documentId == did) ≠ [] := by
  have hPW : (db.versions.filter (fun v => v.documentId == did)).Pairwise
      (fun a b => a.id ≠ b.id) := hWF.sublist (List.filter_sublist _)
  rcases hall : db.versions.filter (fun v => v.documentId == did) with _ | ⟨a, _ | ⟨b, t⟩⟩
  · rw [hall] at h2; simp at h2
  · rw [hall] at h2; simp at h2
  · rw [hall] at hPW
    have hab : a.id ≠ b.id := (List.pairwise_cons.mp hPW).1 b (List.mem_cons_self _ _)
    have haMem : a ∈ db.versions.filter (fun v => v.documentId == did) := by
      rw [hall]; exact List.mem_cons_self _ _
    have hbMem : b ∈ db.versions.filter (fun v => v.documentId == did) := by
      rw [hall]; exact List.mem_cons_of_mem _ (List.mem_cons_self _ _)
    have hw : ∃ w ∈ db.versions.filter (fun v => v.documentId == did), w.id ≠ vid := by
      by_cases ha : a.id = vid
      · exact ⟨b, hbMem, fun hb => hab (ha.trans hb.symm)⟩
      · exact ⟨a, haMem, ha⟩
    obtain ⟨w, hwMem, hwid⟩ := hw
    obtain ⟨hwv, hwd⟩ := List.mem_filter.mp hwMem
    intro hc
    have hm : w ∈ (db.versions.filter (fun v => !(v.id == vid))).filter
        (fun v => v.documentId == did) :=
      List.mem_filter.mpr ⟨List.mem_filter.mpr ⟨hwv, by simp [hwid]⟩, hwd⟩
    rw [hc] at hm; cases hm

theorem repointCurrent_spec (db1 : DB) (did : String) (doc : Document)
    (latest : DocumentVersion) (hdoc : doc ∈ db1.documents) (hdid : doc.id = did)
    (hl : latestOf (db1.versions.filter (fun v => v.documentId == did)) = some latest) :
    RepointedToMax (repointCurrent db1 did latest) did := by
  obtain ⟨hmem, hmax⟩ := latestOf_spec hl
  have hlv : latest ∈ db1.versions := (List.mem_filter.mp hmem).1
  have hld : latest.documentId = did := by
    have hp := (List.mem_filter.mp hmem).2; simpa using hp
  refine ⟨latest, hlv, hld, ?_, ?_⟩
  · intro v hv hvd
    exact hmax v (List.mem_filter.mpr ⟨hv, by simp [hvd]⟩)
  · refine ⟨{ doc with currentVersionId := latest.id, cloudinaryUrl := latest.fileUrl },
      ?_, hdid, rfl, rfl⟩
    have hmap := List.mem_map_of_mem (fun d =>
      if d.id == did then
        { d with currentVersionId := latest.id, cloudinaryUrl := latest.fileUrl }
      else d) hdoc
    simpa [repointCurrent, hdid] using hmap

/-- C1: deleting the version referenced by `currentVersionId` of a document
with at least two versions (with pairwise-distinct version ids) re-points
`currentVersionId` at a still-existing version of that document carrying the
maximum remaining `versionNumber`, and copies its `fileUrl` into
`cloudinaryUrl` — in the user router and in the admin router alike. -/
theorem deleteCurrent_repoints (db : DB) (uid : String) (doc : Document) (folder : Folder)
    (db₁ db₂ : DB)
    (hWF : db.versions.Pairwise (fun a b => a.id ≠ b.id))
    (h2 : 2 ≤ (db.versions.filter (fun v => v.documentId == doc.id)).length) :
    ((docFolderRows db doc.id).head? = some (doc, folder) →
      deleteDocumentVersion db uid ⟨doc.currentVersionId, doc.id⟩ = .ok db₁ →
      RepointedToMax db₁ doc.id) ∧
    ((db.documents.filter (fun d => d.id == doc.id)).head? = some doc →
      adminDeleteDocumentVersion db ⟨doc.currentVersionId, doc.id⟩ = .ok db₂ →
      RepointedToMax db₂ doc.id) := by
  obtain ⟨latest, hl⟩ := latestOf_isSome
    (remaining_nonempty db doc.id doc.currentVersionId hWF h2)
  constructor
  · intro hdoc hok
    have hdocMem : doc ∈ db.documents := (docFolderRows_head hdoc).1
    simp only [deleteDocumentVersion, hdoc] at hok
    by_cases hg : ((categoryGrants db uid folder.categoryId).length == 0) = true
    · rw [if_pos hg] at hok; cases hok
    · rw [if_neg hg] at hok
      by_cases hcd : (!(doc.createdBy == uid && folder.isPersonal)) = true
      · rw [if_pos hcd] at hok; cases hok
      · rw [if_neg hcd] at hok
        cases hvl : (db.versions.filter (fun v => v.id == doc.currentVersionId)).head? with
        | none => rw [hvl] at hok; cases hok
        | some w =>
          rw [hvl] at hok
          by_cases hlen :
              ((db.versions.filter (fun v => v.documentId == doc.id)).length == 1) = true
          · rw [if_pos hlen] at hok; cases hok
          · rw [if_neg hlen] at hok
            rw [if_pos (by simp)] at hok
            rw [hl] at hok
            injection hok with hok
            subst hok
            exact repointCurrent_spec _ doc.id doc latest hdocMem rfl hl
  · intro hdocA hok
    have hdocMem : doc ∈ db.documents := (head?_filter_spec hdocA).1
    simp only [adminDeleteDocumentVersion] at hok
    split at hok
    next => cases hok
    next w hvl =>
      split at hok
      next => cases hok
      next hlen =>
        split at hok
        next hnone => rw [hdocA] at hnone; cases hnone
        next doc1 hsome =>
          rw [hdocA] at hsome
          injection hsome with hsome
          subst hsome
          split at hok
          next hcond =>
            rw [hl] at hok
            injection hok with hok
            subst hok
            exact repointCurrent_spec _ doc.id doc latest hdocMem rfl hl
          next hcond => exact absurd (beq_self_eq_true _) hcond

/-- The state of `dbTwo` after deleting its current version `v2`. -/
def dbTwoDeleted : DB :=
  { dbTwo with
    documents := [⟨"d1", "Doc", "f", "u", "url1", "v1"⟩],
    versions := [⟨"v1", "d1", 1, "url1", "u"⟩] }

/-- Witness for C1: deleting current version `v2` of the two-version concrete
document re-points to `v1`, in both routers. -/
theorem deleteCurrent_repoints_witness :
    deleteDocumentVersion dbTwo "u" ⟨"v2", "d1"⟩ = .ok dbTwoDeleted ∧
    adminDeleteDocumentVersion dbTwo ⟨"v2", "d1"⟩ = .ok dbTwoDeleted ∧
    RepointedToMax dbTwoDeleted "d1" :=
  ⟨by decide, by decide,
    (deleteCurrent_repoints dbTwo "u" ⟨"d1", "Doc", "f", "u", "url2", "v2"⟩
      ⟨"f", "F", "c", "u", true⟩ dbTwoDeleted dbTwoDeleted
      (by decide) (by decide)).1 (by decide) (by decide)⟩

end DMS
